import Mathlib

/-!
A shallow embedding of `src/index.ts` of astro-sanity-assets: a build-time
asset synchronizer for Astro that downloads Sanity file assets into a local
staging directory `public/<directory>` at build start and removes that
directory at build end when (and only when) this run created it.

Modelling choices:
* Filesystem paths are lists of components of an absolute POSIX path; the
  process working directory is modelled as the filesystem root, so Node's
  `resolve("public", directory)` becomes path resolution against `[]`.
* The filesystem is an association list from paths to entries.  An entry is a
  directory, a readable file with byte contents, or a file whose read stream
  errors (modelling a permission error or a race with deletion).  The root
  path `[]` always exists (as the working directory does in reality).
* Effects are made explicit: the Sanity client/fetch is an oracle value
  (`FetchOutcome`), the network is a function from URL to content or error,
  and SHA-1 is an abstract function from byte lists to hex strings — the
  code only ever streams bytes through the hash and compares the digest
  string, so the orchestration logic is parametric in it.
* The logger accumulates entries; the loop state additionally records which
  filenames were passed to `downloadAsset` and to `checkIfFileHasNotChanged`,
  making "a download was attempted" / "the change detector was invoked"
  directly observable.
-/

namespace AstroSanityAssets

/-- Severities of the Astro integration logger used by the source. -/
inductive LogLevel where
  | debug
  | info
  | error
deriving DecidableEq

/-- One emitted log line. -/
structure LogEntry where
  level : LogLevel
  msg : String
deriving DecidableEq

/-- Errors that can be thrown/rejected in the source: client construction
failure, `client.fetch` rejection, a read-stream error during hashing, and a
request/write failure inside `downloadAsset`. -/
inductive JsError where
  | configError
  | fetchError
  | ioError
  | downloadError
deriving DecidableEq

/-- An absolute POSIX path as its list of components. -/
abbrev Path := List String

/-- `pathHasRoot root p` holds when `p` lies inside the directory `root`
(including `p = root` itself): `root` is a component-wise prefix of `p`. -/
def pathHasRoot : Path → Path → Bool
  | [], _ => true
  | _ :: _, [] => false
  | r :: rs, q :: qs => r == q && pathHasRoot rs qs

/-- Split a character list on a separator character; mirrors
`String.splitOn` for a one-character separator (always at least one group,
empty groups kept). -/
def splitOnChar (sep : Char) : List Char → List (List Char)
  | [] => [[]]
  | c :: rest =>
    if c = sep then [] :: splitOnChar sep rest
    else
      match splitOnChar sep rest with
      | [] => [[c]]
      | g :: gs => (c :: g) :: gs

/-- `s.splitOn "/"` over the string's characters. -/
def splitSlash (s : String) : List String :=
  (splitOnChar '/' s.data).map (fun g => ⟨g⟩)

/-- `s.startsWith "/"`. -/
def startsWithSlash (s : String) : Bool :=
  match s.data with
  | [] => false
  | c :: _ => c == '/'

/-- One step of POSIX path normalization: empty components and `"."` are
dropped, `".."` pops the last component (staying at the root when already
there), anything else is appended. -/
def normStep (acc : List String) (c : String) : List String :=
  if c = "" ∨ c = "." then acc
  else if c = ".." then acc.dropLast
  else acc ++ [c]

/-- Normalize a component list into an absolute path, as Node's
`path.resolve` does once the leading parts are assembled. -/
def normalize (cs : List String) : List String :=
  cs.foldl normStep []

/-- Node's `path.resolve(base, name)` for an already-absolute `base`: an
absolute `name` replaces `base`, a relative one is appended, and the result
is normalized. -/
def resolvePath (base : Path) (name : String) : Path :=
  if startsWithSlash name then normalize (splitSlash name)
  else normalize (base ++ splitSlash name)

/-- Render a path for log messages. -/
def pathToString (p : Path) : String :=
  "/" ++ String.intercalate "/" p

/-- A filesystem entry: a directory, a readable file with its byte contents,
or a file whose read stream errors when opened. -/
inductive FSEntry where
  | dir : FSEntry
  | file : List Nat → FSEntry
  | unreadableFile : FSEntry
deriving DecidableEq

/-- Association-list lookup; the first binding for a path wins. -/
def lookupEntries : List (Path × FSEntry) → Path → Option FSEntry
  | [], _ => none
  | e :: es, p => if e.1 = p then some e.2 else lookupEntries es p

/-- The filesystem state: path-to-entry bindings (earlier bindings shadow
later ones). -/
structure FS where
  entries : List (Path × FSEntry)
deriving DecidableEq

/-- Look up the entry at a path. -/
def lookupFS (fs : FS) (p : Path) : Option FSEntry :=
  lookupEntries fs.entries p

/-- Create or overwrite the entry at a path. -/
def setEntry (fs : FS) (p : Path) (e : FSEntry) : FS :=
  ⟨(p, e) :: fs.entries⟩

/-- Remove a directory together with everything inside it, as
`rmSync(p, { recursive: true, force: true })` does. -/
def removeSubtree (fs : FS) (p : Path) : FS :=
  ⟨fs.entries.filter (fun x => !(pathHasRoot p x.1))⟩

/-- `existsSync`: the root (working directory) always exists; any other path
exists when it has an entry. -/
def existsSyncFS (fs : FS) (p : Path) : Bool :=
  p.isEmpty || (lookupFS fs p).isSome

/-- All prefixes of a path, shortest first, ending with the path itself. -/
def ancestorPaths (p : Path) : List Path :=
  (List.range p.length).map (fun i => p.take (i + 1))

/-- `mkdirSync(p, { recursive: true })`: create a directory entry at every
prefix of `p` that does not already exist. -/
def mkdirRecursive (fs : FS) (p : Path) : FS :=
  (ancestorPaths p).foldl
    (fun acc q => if existsSyncFS acc q then acc else setEntry acc q .dir) fs

/-- The normalized file descriptor produced by the record mapper
(`FileAssetType` in the source): remote URL, local filename, optional SHA-1
fingerprint. -/
structure FileAssetType where
  url : String
  filename : String
  sha1hash : Option String
deriving DecidableEq

/-- A raw Sanity record as read by the default handler.  The TS type
declares `extension`, `assetId` and `url` as optional; `sha1hash` is read
off the untyped record as well. -/
structure SanityFileAsset where
  extension : Option String
  assetId : Option String
  url : Option String
  sha1hash : Option String
deriving DecidableEq

/-- JavaScript truthiness of an optional string: `undefined` and `""` are
falsy. -/
def truthy : Option String → Bool
  | none => false
  | some s => !(s == "")

/-- The default handler (source lines 114–126): a record maps to a
descriptor only when `url`, `assetId` and `extension` are all truthy;
the filename is `<assetId>.<extension>` and the fingerprint is copied. -/
def defaultHandler (data : SanityFileAsset) : Option FileAssetType :=
  if truthy data.url && truthy data.assetId && truthy data.extension then
    some ⟨data.url.getD "", (data.assetId.getD "") ++ "." ++ (data.extension.getD ""),
      data.sha1hash⟩
  else none

/-- `checkIfFileHasNotChanged` (source lines 51–75): `false` when nothing
exists at `filePath`; otherwise the file is streamed through SHA-1 and the
hex digest compared (case-sensitively) with `remoteSha1`.  A read-stream
error rejects the promise; opening a directory for reading also errors. -/
def checkIfFileHasNotChanged (hash : List Nat → String) (fs : FS) (filePath : Path)
    (remoteSha1 : String) : Except JsError Bool :=
  if existsSyncFS fs filePath = false then .ok false
  else
    match lookupFS fs filePath with
    | some (.file contents) => .ok (decide (hash contents = remoteSha1))
    | some .unreadableFile => .error .ioError
    | some .dir => .error .ioError
    | none => .error .ioError

/-- The outcome of constructing the Sanity client and running the query:
`createClient` may throw, `client.fetch` may reject, or a record list is
returned. -/
inductive FetchOutcome (D : Type) where
  | clientError : FetchOutcome D
  | fetchError : FetchOutcome D
  | ok : List D → FetchOutcome D

/-- `fetchAssetUrls` (source lines 77–96): a client-construction failure is
logged and rethrown; otherwise a debug trace is emitted before the query,
whose rejection propagates unlogged. -/
def fetchAssetUrls {D : Type} (fo : FetchOutcome D) (log : List LogEntry) :
    List LogEntry × Except JsError (List D) :=
  match fo with
  | .clientError =>
      (log ++ [⟨.error, "Could not create Sanity client. Please check the configuration."⟩],
        .error .configError)
  | .fetchError =>
      (log ++ [⟨.debug, "Collecting assets from Sanity…"⟩], .error .fetchError)
  | .ok assets =>
      (log ++ [⟨.debug, "Collecting assets from Sanity…"⟩], .ok assets)

/-- `getFolderPath` (source lines 128–130): `resolve("public", directory)`,
with the working directory modelled as the root. -/
def getFolderPath (directory : String) : Path :=
  resolvePath (resolvePath [] "public") directory

/-- `createFolder` (source lines 132–144): no-op returning `false` when the
folder exists, otherwise create it (with parents) and return `true`. -/
def createFolder (fp : Path) (fs : FS) (log : List LogEntry) :
    FS × List LogEntry × Bool :=
  if existsSyncFS fs fp then (fs, log, false)
  else (mkdirRecursive fs fp, log ++ [⟨.debug, "Created folder: " ++ pathToString fp⟩], true)

/-- `deleteFolder` (source lines 146–158): no-op returning `false` when the
folder does not exist, otherwise remove it recursively. -/
def deleteFolder (fp : Path) (fs : FS) (log : List LogEntry) :
    FS × List LogEntry × Bool :=
  if existsSyncFS fs fp = false then (fs, log, false)
  else (removeSubtree fs fp, log ++ [⟨.debug, "Deleted folder: " ++ pathToString fp⟩], true)

/-- `downloadAsset` (source lines 160–177): the write stream to
`resolve(folder, filename)` is opened — creating the file or truncating an
existing one to zero bytes — before the GET is issued; a transport failure
therefore leaves the truncated file behind.  Opening a write stream on a
directory errors without truncating anything. -/
def downloadAsset (net : String → Except Unit (List Nat)) (fp : Path) (fs : FS)
    (url : String) (filename : String) : FS × Except JsError Unit :=
  let filePath := resolvePath fp filename
  match lookupFS fs filePath with
  | some .dir => (fs, .error .downloadError)
  | _ =>
    let fs1 := setEntry fs filePath (.file [])
    match net url with
    | .error _ => (fs1, .error .downloadError)
    | .ok contents => (setEntry fs1 filePath (.file contents), .ok ())

/-- The mutable state threaded through the per-descriptor loop of the
build-start hook, instrumented with the filenames passed to `downloadAsset`
(`downloads`) and to `checkIfFileHasNotChanged` (`checks`). -/
structure LoopState where
  fs : FS
  log : List LogEntry
  downloads : List String
  checks : List String
deriving DecidableEq

/-- The `Downloading …` branch of the loop body (source lines 218–222):
log, call `downloadAsset`, and catch its failure by logging an error. -/
def doDownload (net : String → Except Unit (List Nat)) (fp : Path)
    (st : LoopState) (f : FileAssetType) : LoopState :=
  let st1 : LoopState :=
    { st with
      log := st.log ++ [⟨.info, "Downloading " ++ f.filename ++ "..."⟩],
      downloads := st.downloads ++ [f.filename] }
  match downloadAsset net fp st1.fs f.url f.filename with
  | (fs1, .ok _) => { st1 with fs := fs1 }
  | (fs1, .error _) =>
      { st1 with
        fs := fs1,
        log := st1.log ++ [⟨.error, "Downloading " ++ f.filename ++ " failed."⟩] }

/-- One iteration of the per-descriptor loop (source lines 205–223).  When
the fingerprint is truthy the change detector runs first: an unchanged file
is skipped, a hashing error rejects the whole hook (no catch around the
`await`), and otherwise the download proceeds with its own catch. -/
def processOne (hash : List Nat → String) (net : String → Except Unit (List Nat))
    (fp : Path) (st : LoopState) (f : FileAssetType) :
    Except (LoopState × JsError) LoopState :=
  if truthy f.sha1hash then
    let h := f.sha1hash.getD ""
    let st1 : LoopState := { st with checks := st.checks ++ [f.filename] }
    match checkIfFileHasNotChanged hash st.fs (resolvePath fp f.filename) h with
    | .error e => .error (st1, e)
    | .ok true =>
        .ok { st1 with
          log := st1.log ++ [⟨.info, "Skipping " ++ f.filename ++ ", file has not changed."⟩] }
    | .ok false => .ok (doDownload net fp st1 f)
  else .ok (doDownload net fp st f)

/-- The whole per-descriptor loop: descriptors are processed strictly in
order; an uncaught error (only hashing can raise one) aborts the rest. -/
def processFiles (hash : List Nat → String) (net : String → Except Unit (List Nat))
    (fp : Path) : List FileAssetType → LoopState → Except (LoopState × JsError) LoopState
  | [], st => .ok st
  | f :: rest, st =>
    match processOne hash net fp st f with
    | .error e => .error e
    | .ok st1 => processFiles hash net fp rest st1

deriving instance DecidableEq for Except

/-- Everything observable about one run of the build-start hook. -/
structure BuildStartResult where
  fs : FS
  createdFolder : Bool
  log : List LogEntry
  downloads : List String
  checks : List String
  outcome : Except JsError Unit
deriving DecidableEq

/-- The part of the build-start hook after the empty-`assets` short-circuit
(source lines 199–223): record the create-folder flag, log the batch size,
and run the per-descriptor loop; a loop error propagates as the hook's
outcome with the flag already assigned. -/
def buildStartMain {D : Type} (directory : String) (handler : D → Option FileAssetType)
    (assets : List D) (hash : List Nat → String)
    (net : String → Except Unit (List Nat)) (fs : FS) (log1 : List LogEntry) :
    BuildStartResult :=
  let files := assets.filterMap handler
  let fp := getFolderPath directory
  let cf := createFolder fp fs log1
  let log3 := cf.2.1 ++
    [⟨.info, "Downloading " ++ toString files.length ++ " remote assets to /public/"
      ++ directory ++ "…"⟩]
  match processFiles hash net fp files ⟨cf.1, log3, [], []⟩ with
  | .ok st => ⟨st.fs, cf.2.2, st.log, st.downloads, st.checks, .ok ()⟩
  | .error (st, e) => ⟨st.fs, cf.2.2, st.log, st.downloads, st.checks, .error e⟩

/-- The `astro:build:start` hook (source lines 182–224).  `createdFolder0`
is the value of the integration's closure variable before the hook runs
(`false` at construction); the returned `createdFolder` is its value after.
Note that the short-circuit tests the *unmapped* `assets` for emptiness,
after `files` has been computed. -/
def buildStart {D : Type} (directory : String) (handler : D → Option FileAssetType)
    (fo : FetchOutcome D) (hash : List Nat → String)
    (net : String → Except Unit (List Nat)) (createdFolder0 : Bool) (fs : FS) :
    BuildStartResult :=
  let log0 : List LogEntry := [⟨.debug, "Fetching remote assets…"⟩]
  match fetchAssetUrls fo log0 with
  | (log1, .error e) => ⟨fs, createdFolder0, log1, [], [], .error e⟩
  | (log1, .ok assets) =>
    if assets.isEmpty then
      ⟨fs, createdFolder0, log1 ++ [⟨.debug, "No remote assets found."⟩], [], [], .ok ()⟩
    else buildStartMain directory handler assets hash net fs log1

/-- The `astro:build:done` hook (source lines 225–229): delete the staging
folder exactly when this run's build-start set `createdFolder`. -/
def buildDone (directory : String) (createdFolder : Bool) (fs : FS)
    (log : List LogEntry) : FS × List LogEntry :=
  if createdFolder then
    let (fs1, log1, _) := deleteFolder (getFolderPath directory) fs log
    (fs1, log1)
  else (fs, log)

/-! ### Basic filesystem lemmas -/

theorem lookupFS_setEntry (fs : FS) (p q : Path) (e : FSEntry) :
    lookupFS (setEntry fs p e) q = if p = q then some e else lookupFS fs q := by
  simp [lookupFS, setEntry, lookupEntries]

theorem lookupFS_setEntry_self (fs : FS) (p : Path) (e : FSEntry) :
    lookupFS (setEntry fs p e) p = some e := by
  simp [lookupFS_setEntry]

theorem lookupFS_setEntry_ne (fs : FS) (p q : Path) (e : FSEntry) (h : p ≠ q) :
    lookupFS (setEntry fs p e) q = lookupFS fs q := by
  simp [lookupFS_setEntry, h]

theorem downloadAsset_fs_frame (net : String → Except Unit (List Nat)) (fp : Path)
    (fs : FS) (url fn : String) (q : Path) (h : q ≠ resolvePath fp fn) :
    lookupFS (downloadAsset net fp fs url fn).1 q = lookupFS fs q := by
  unfold downloadAsset
  cases hl : lookupFS fs (resolvePath fp fn) with
  | none =>
    cases hn : net url <;> simp [hl, hn, lookupFS_setEntry_ne _ _ _ _ (Ne.symm h)]
  | some e =>
    cases e with
    | dir => simp [hl]
    | file c =>
      cases hn : net url <;> simp [hl, hn, lookupFS_setEntry_ne _ _ _ _ (Ne.symm h)]
    | unreadableFile =>
      cases hn : net url <;> simp [hl, hn, lookupFS_setEntry_ne _ _ _ _ (Ne.symm h)]

/-! ### Loop-body lemmas -/

theorem doDownload_downloads (net : String → Except Unit (List Nat)) (fp : Path)
    (st : LoopState) (f : FileAssetType) :
    (doDownload net fp st f).downloads = st.downloads ++ [f.filename] := by
  unfold doDownload
  dsimp only
  generalize downloadAsset net fp st.fs f.url f.filename = q
  rcases q with ⟨fs1, _ | _⟩ <;> rfl

theorem doDownload_checks (net : String → Except Unit (List Nat)) (fp : Path)
    (st : LoopState) (f : FileAssetType) :
    (doDownload net fp st f).checks = st.checks := by
  unfold doDownload
  dsimp only
  generalize downloadAsset net fp st.fs f.url f.filename = q
  rcases q with ⟨fs1, _ | _⟩ <;> rfl

theorem doDownload_fs (net : String → Except Unit (List Nat)) (fp : Path)
    (st : LoopState) (f : FileAssetType) :
    (doDownload net fp st f).fs = (downloadAsset net fp st.fs f.url f.filename).1 := by
  unfold doDownload
  dsimp only
  generalize downloadAsset net fp st.fs f.url f.filename = q
  rcases q with ⟨fs1, _ | _⟩ <;> rfl

/-! ### C1 -/

/-- C1 counterexample: one record that the mapper sends to `none`, an absent
staging directory, and a successful fetch.  Every record fails the mapping
predicate and no download is attempted, yet after build-start the staging
directory `public/downloads` exists: the short-circuit tests the unmapped
`assets`, not the mapped `files`, so the directory is created anyway. -/
theorem c1_counterexample :
    (∀ d ∈ [()], (fun _ : Unit => (none : Option FileAssetType)) d = none) ∧
    (buildStart (D := Unit) "downloads" (fun _ => none) (.ok [()])
        (fun _ => "") (fun _ => .ok []) false ⟨[]⟩).downloads = [] ∧
    existsSyncFS (buildStart (D := Unit) "downloads" (fun _ => none) (.ok [()])
        (fun _ => "") (fun _ => .ok []) false ⟨[]⟩).fs (getFolderPath "downloads") = true :=
  ⟨fun _ _ => rfl, by decide, by decide⟩

/-- C1 (amended): when no record satisfies the mapping predicate the
build-start hook attempts no download and invokes no change check, and it
short-circuits without touching the filesystem only when the *unmapped*
record sequence is empty; when the sequence is non-empty the create-folder
step still runs, so the staging directory is created exactly when it did
not already exist. -/
theorem c1_amended {D : Type} (directory : String) (handler : D → Option FileAssetType)
    (assets : List D) (hash : List Nat → String) (net : String → Except Unit (List Nat))
    (fs : FS) (hmap : ∀ d ∈ assets, handler d = none) :
    (buildStart directory handler (.ok assets) hash net false fs).downloads = [] ∧
    (buildStart directory handler (.ok assets) hash net false fs).checks = [] ∧
    (buildStart directory handler (.ok assets) hash net false fs).outcome = .ok () ∧
    (assets = [] →
      (buildStart directory handler (.ok assets) hash net false fs).fs = fs ∧
      (buildStart directory handler (.ok assets) hash net false fs).createdFolder = false) ∧
    (assets ≠ [] →
      (buildStart directory handler (.ok assets) hash net false fs).createdFolder
        = !(existsSyncFS fs (getFolderPath directory))) := by
  have hfiles : assets.filterMap handler = [] := List.filterMap_eq_nil_iff.mpr hmap
  cases assets with
  | nil => simp [buildStart, fetchAssetUrls]
  | cons a as =>
    simp only [buildStart, fetchAssetUrls, List.isEmpty_cons, Bool.false_eq_true,
      if_false, buildStartMain, hfiles, processFiles]
    cases h : existsSyncFS fs (getFolderPath directory) <;>
      simp [createFolder, h, processFiles]

/-- C1 witness: the amended theorem applied at the counterexample input. -/
theorem c1_amended_witness :
    (buildStart (D := Unit) "downloads" (fun _ => none) (.ok [()])
        (fun _ => "") (fun _ => .ok []) false ⟨[]⟩).downloads = [] :=
  (c1_amended "downloads" (fun _ => none) [()] (fun _ => "") (fun _ => .ok [])
    ⟨[]⟩ (fun _ _ => rfl)).1

/-! ### C6 -/

/-- C6: if Sanity client construction or the fetch query fails, the error
propagates out of the build-start hook uncaught (after an error log entry in
the client-construction case); the filesystem is untouched — no staging
directory is created — and no download or change check is attempted. -/
theorem c6_fatal_fetch {D : Type} (directory : String)
    (handler : D → Option FileAssetType) (fo : FetchOutcome D)
    (hash : List Nat → String) (net : String → Except Unit (List Nat))
    (createdFolder0 : Bool) (fs : FS)
    (hfo : fo = FetchOutcome.clientError ∨ fo = FetchOutcome.fetchError) :
    (buildStart directory handler fo hash net createdFolder0 fs).fs = fs ∧
    (buildStart directory handler fo hash net createdFolder0 fs).downloads = [] ∧
    (buildStart directory handler fo hash net createdFolder0 fs).checks = [] ∧
    (buildStart directory handler fo hash net createdFolder0 fs).createdFolder
      = createdFolder0 ∧
    (fo = FetchOutcome.clientError →
      (buildStart directory handler fo hash net createdFolder0 fs).outcome
          = .error .configError ∧
      LogEntry.mk .error "Could not create Sanity client. Please check the configuration."
        ∈ (buildStart directory handler fo hash net createdFolder0 fs).log) ∧
    (fo = FetchOutcome.fetchError →
      (buildStart directory handler fo hash net createdFolder0 fs).outcome
          = .error .fetchError) := by
  rcases hfo with h | h <;> subst h <;> simp [buildStart, fetchAssetUrls]

/-- C6 witness: a failing client construction at a concrete input. -/
theorem c6_fatal_fetch_witness :
    (buildStart (D := Unit) "downloads" (fun _ => none) .clientError
        (fun _ => "") (fun _ => .ok []) false ⟨[]⟩).fs = (⟨[]⟩ : FS) :=
  (c6_fatal_fetch "downloads" (fun _ => none) .clientError (fun _ => "")
    (fun _ => .ok []) false ⟨[]⟩ (Or.inl rfl)).1

/-! ### C4 -/

/-- C4: a descriptor without a fingerprint never reaches the change
detector (the `checks` instrumentation is unchanged) and is unconditionally
handed to `downloadAsset`, whatever the network does. -/
theorem c4_no_fingerprint (hash : List Nat → String)
    (net : String → Except Unit (List Nat)) (fp : Path) (st : LoopState)
    (f : FileAssetType) (hfp : f.sha1hash = none) :
    ∃ st', processOne hash net fp st f = .ok st' ∧
      st'.checks = st.checks ∧ st'.downloads = st.downloads ++ [f.filename] := by
  refine ⟨doDownload net fp st f, ?_, doDownload_checks net fp st f,
    doDownload_downloads net fp st f⟩
  simp [processOne, truthy, hfp]

/-- C4 witness. -/
theorem c4_no_fingerprint_witness :
    ∃ st', processOne (fun _ => "") (fun _ => .ok []) ["public", "downloads"]
        ⟨⟨[]⟩, [], [], []⟩ ⟨"https://x/a", "a.png", none⟩ = .ok st' ∧
      st'.checks = ([] : List String) ∧ st'.downloads = [] ++ ["a.png"] :=
  c4_no_fingerprint (fun _ => "") (fun _ => .ok []) ["public", "downloads"]
    ⟨⟨[]⟩, [], [], []⟩ ⟨"https://x/a", "a.png", none⟩ rfl

/-! ### C10 -/

/-- C10: `downloadAsset` opens (creates or truncates) the write stream at
the destination before issuing the GET, so when the request fails the file
at the destination has already been emptied: afterwards it holds zero
bytes, and the operation reports a download error.  A previously valid
local copy is therefore not preserved on error. -/
theorem c10_not_atomic (net : String → Except Unit (List Nat)) (fp : Path)
    (fs : FS) (url filename : String) (hnet : net url = .error ())
    (hnd : lookupFS fs (resolvePath fp filename) ≠ some FSEntry.dir) :
    (downloadAsset net fp fs url filename).2 = .error .downloadError ∧
    lookupFS (downloadAsset net fp fs url filename).1 (resolvePath fp filename)
      = some (FSEntry.file []) := by
  unfold downloadAsset
  cases hl : lookupFS fs (resolvePath fp filename) with
  | none => simp [hl, hnet, lookupFS_setEntry_self]
  | some e =>
    cases e with
    | dir => exact absurd hl hnd
    | file c => simp [hl, hnet, lookupFS_setEntry_self]
    | unreadableFile => simp [hl, hnet, lookupFS_setEntry_self]

/-- C10 witness: a failing download truncates a previously valid two-byte
local copy to the empty file. -/
theorem c10_not_atomic_witness :
    (downloadAsset (fun _ => .error ()) ["public", "downloads"]
        ⟨[(["public", "downloads", "a.png"], .file [1, 2])]⟩
        "https://x/a" "a.png").2 = .error .downloadError ∧
    lookupFS (downloadAsset (fun _ => .error ()) ["public", "downloads"]
        ⟨[(["public", "downloads", "a.png"], .file [1, 2])]⟩
        "https://x/a" "a.png").1
        (resolvePath ["public", "downloads"] "a.png") = some (FSEntry.file []) :=
  c10_not_atomic (fun _ => .error ()) ["public", "downloads"]
    ⟨[(["public", "downloads", "a.png"], .file [1, 2])]⟩
    "https://x/a" "a.png" rfl (by decide)

theorem downloadAsset_error_of_net (net : String → Except Unit (List Nat))
    (fp : Path) (fs : FS) (url fn : String) (hnet : net url = .error ()) :
    ∃ fs', downloadAsset net fp fs url fn = (fs', .error .downloadError) := by
  cases hl : lookupFS fs (resolvePath fp fn) with
  | none =>
    exact ⟨setEntry fs (resolvePath fp fn) (FSEntry.file []),
      by simp [downloadAsset, hl, hnet]⟩
  | some e =>
    cases e with
    | dir => exact ⟨fs, by simp [downloadAsset, hl]⟩
    | file c =>
      exact ⟨setEntry fs (resolvePath fp fn) (FSEntry.file []),
        by simp [downloadAsset, hl, hnet]⟩
    | unreadableFile =>
      exact ⟨setEntry fs (resolvePath fp fn) (FSEntry.file []),
        by simp [downloadAsset, hl, hnet]⟩

theorem doDownload_failed_log (net : String → Except Unit (List Nat)) (fp : Path)
    (st : LoopState) (f : FileAssetType) (hnet : net f.url = .error ()) :
    (doDownload net fp st f).log
      = (st.log ++ [⟨.info, "Downloading " ++ f.filename ++ "..."⟩])
          ++ [⟨.error, "Downloading " ++ f.filename ++ " failed."⟩] := by
  unfold doDownload
  dsimp only
  obtain ⟨fs', hda⟩ := downloadAsset_error_of_net net fp st.fs f.url f.filename hnet
  rw [hda]

/-! ### C3 -/

/-- C3: for a descriptor whose fingerprint is a truthy string, the download
is skipped exactly when a readable file exists at the resolved staging path
and its digest equals the fingerprint by exact string comparison: on a
match the loop state only gains the skip log line and the check record (no
download, filesystem untouched), while on a digest mismatch — a zero-length
local file included — or when nothing exists at the path, the descriptor is
handed to `downloadAsset`. -/
theorem c3_skip_iff_hash_match (hash : List Nat → String)
    (net : String → Except Unit (List Nat)) (fp : Path) (st : LoopState)
    (f : FileAssetType) (h : String) (hfp : f.sha1hash = some h) (hne : h ≠ "") :
    (∀ c, lookupFS st.fs (resolvePath fp f.filename) = some (.file c) →
      ((hash c = h →
        processOne hash net fp st f = .ok
          { st with
            checks := st.checks ++ [f.filename],
            log := st.log
              ++ [⟨.info, "Skipping " ++ f.filename ++ ", file has not changed."⟩] }) ∧
       (hash c ≠ h → ∃ st', processOne hash net fp st f = .ok st' ∧
          st'.downloads = st.downloads ++ [f.filename]))) ∧
    (existsSyncFS st.fs (resolvePath fp f.filename) = false →
      ∃ st', processOne hash net fp st f = .ok st' ∧
        st'.downloads = st.downloads ++ [f.filename]) := by
  constructor
  · intro c hc
    have hex : existsSyncFS st.fs (resolvePath fp f.filename) = true := by
      simp [existsSyncFS, hc]
    constructor
    · intro hh
      simp [processOne, truthy, hfp, hne, checkIfFileHasNotChanged, hex, hc, hh]
    · intro hh
      refine ⟨doDownload net fp { st with checks := st.checks ++ [f.filename] } f, ?_, ?_⟩
      · simp [processOne, truthy, hfp, hne, checkIfFileHasNotChanged, hex, hc, hh]
      · simpa using doDownload_downloads net fp _ f
  · intro hex
    refine ⟨doDownload net fp { st with checks := st.checks ++ [f.filename] } f, ?_, ?_⟩
    · simp [processOne, truthy, hfp, hne, checkIfFileHasNotChanged, hex]
    · simpa using doDownload_downloads net fp _ f

/-- C3 witness: a stale local file whose digest `"0"` differs from the
fingerprint `"3"` is re-downloaded: the change detector reports a mismatch
and the download list gains the filename. -/
theorem c3_skip_iff_hash_match_witness :
    ∃ st', processOne (fun c => if c = [5, 6, 7] then "3" else "0")
        (fun _ => .ok [5, 6, 7]) ["public", "downloads"]
        ⟨⟨[(["public", "downloads", "a.png"], .file [9])]⟩, [], [], []⟩
        ⟨"https://x/a", "a.png", some "3"⟩ = .ok st' ∧
      st'.downloads = [] ++ ["a.png"] := by
  have H := c3_skip_iff_hash_match (fun c => if c = [5, 6, 7] then "3" else "0")
    (fun _ => .ok [5, 6, 7]) ["public", "downloads"]
    ⟨⟨[(["public", "downloads", "a.png"], .file [9])]⟩, [], [], []⟩
    ⟨"https://x/a", "a.png", some "3"⟩ "3" rfl (by decide)
  exact (H.1 [9] (by decide)).2 (by decide)

/-! ### C8 -/

/-- C8: when the local file carrying a truthy fingerprint exists but its
read stream errors during hashing, `checkIfFileHasNotChanged` rejects with
an I/O error; the per-descriptor loop has no catch around it, so the error
aborts the loop (the remaining descriptors are not reached) and the
descriptor is not silently treated as changed — its download list is
unchanged. -/
theorem c8_hash_error_propagates (hash : List Nat → String)
    (net : String → Except Unit (List Nat)) (fp : Path) (st : LoopState)
    (f : FileAssetType) (h : String) (rest : List FileAssetType)
    (hfp : f.sha1hash = some h) (hne : h ≠ "")
    (hent : lookupFS st.fs (resolvePath fp f.filename)
      = some FSEntry.unreadableFile) :
    checkIfFileHasNotChanged hash st.fs (resolvePath fp f.filename) h
        = .error .ioError ∧
    processOne hash net fp st f
        = .error ({ st with checks := st.checks ++ [f.filename] }, .ioError) ∧
    processFiles hash net fp (f :: rest) st
        = .error ({ st with checks := st.checks ++ [f.filename] }, .ioError) ∧
    ({ st with checks := st.checks ++ [f.filename] } : LoopState).downloads
        = st.downloads := by
  have hex : existsSyncFS st.fs (resolvePath fp f.filename) = true := by
    simp [existsSyncFS, hent]
  have h1 : checkIfFileHasNotChanged hash st.fs (resolvePath fp f.filename) h
      = .error .ioError := by
    simp [checkIfFileHasNotChanged, hex, hent]
  have h2 : processOne hash net fp st f
      = .error ({ st with checks := st.checks ++ [f.filename] }, .ioError) := by
    simp [processOne, truthy, hfp, hne, h1]
  exact ⟨h1, h2, by simp [processFiles, h2], rfl⟩

/-- C8 witness: a concrete unreadable staged file aborts the loop with an
I/O error. -/
theorem c8_hash_error_propagates_witness :
    processFiles (fun _ => "d") (fun _ => .ok []) ["public", "downloads"]
        [⟨"https://x/a", "a.png", some "d"⟩]
        ⟨⟨[(["public", "downloads", "a.png"], .unreadableFile)]⟩, [], [], []⟩
      = .error (⟨⟨[(["public", "downloads", "a.png"], .unreadableFile)]⟩, [], [],
          [] ++ ["a.png"]⟩, .ioError) :=
  (c8_hash_error_propagates (fun _ => "d") (fun _ => .ok []) ["public", "downloads"]
    ⟨⟨[(["public", "downloads", "a.png"], .unreadableFile)]⟩, [], [], []⟩
    ⟨"https://x/a", "a.png", some "d"⟩ "d" [] rfl (by decide) (by decide)).2.2.1

/-! ### C5 -/

theorem processFiles_ok_of_no_fingerprint (hash : List Nat → String)
    (net : String → Except Unit (List Nat)) (fp : Path) :
    ∀ (files : List FileAssetType) (st : LoopState),
      (∀ g ∈ files, g.sha1hash = none) →
      ∃ st2, processFiles hash net fp files st = .ok st2 := by
  intro files
  induction files with
  | nil => exact fun st _ => ⟨st, rfl⟩
  | cons g gs ih =>
    intro st hg
    have h1 : processOne hash net fp st g = .ok (doDownload net fp st g) := by
      simp [processOne, truthy, hg g (by simp)]
    obtain ⟨st2, h2⟩ := ih (doDownload net fp st g) (fun x hx => hg x (by simp [hx]))
    exact ⟨st2, by simp [processFiles, h1, h2]⟩

/-- C5: a failing download is caught per descriptor: the loop body still
returns normally with the failure logged as the last log line and the
filename recorded as attempted, processing then continues with the
remaining descriptors exactly as if they were the whole batch; and a batch
of fingerprint-less descriptors always completes the loop normally no
matter how many downloads fail. -/
theorem c5_download_failure_isolated (hash : List Nat → String)
    (net : String → Except Unit (List Nat)) (fp : Path) (st : LoopState)
    (f : FileAssetType) (rest : List FileAssetType)
    (hnet : net f.url = .error ())
    (hready : f.sha1hash = none ∨ f.sha1hash = some "" ∨
      ∃ h, f.sha1hash = some h ∧ h ≠ "" ∧
        checkIfFileHasNotChanged hash st.fs (resolvePath fp f.filename) h
          = .ok false) :
    (∃ st', processOne hash net fp st f = .ok st' ∧
      st'.downloads = st.downloads ++ [f.filename] ∧
      st'.log.getLast? = some ⟨.error, "Downloading " ++ f.filename ++ " failed."⟩ ∧
      processFiles hash net fp (f :: rest) st = processFiles hash net fp rest st') ∧
    ((∀ g ∈ f :: rest, g.sha1hash = none) →
      ∃ st2, processFiles hash net fp (f :: rest) st = .ok st2) := by
  refine ⟨?_, processFiles_ok_of_no_fingerprint hash net fp (f :: rest) st⟩
  have hlast : ∀ st0 : LoopState, st0.log = st.log →
      (doDownload net fp st0 f).log.getLast?
        = some ⟨.error, "Downloading " ++ f.filename ++ " failed."⟩ := by
    intro st0 h0
    rw [doDownload_failed_log net fp st0 f hnet, List.getLast?_concat]
  rcases hready with hfp | hfp | ⟨h, hfp, hne, hchk⟩
  · refine ⟨doDownload net fp st f, ?_, doDownload_downloads net fp st f,
      hlast st rfl, ?_⟩
    · simp [processOne, truthy, hfp]
    · simp [processFiles, processOne, truthy, hfp]
  · refine ⟨doDownload net fp st f, ?_, doDownload_downloads net fp st f,
      hlast st rfl, ?_⟩
    · simp [processOne, truthy, hfp]
    · simp [processFiles, processOne, truthy, hfp]
  · have h1 : processOne hash net fp st f
        = .ok (doDownload net fp { st with checks := st.checks ++ [f.filename] } f) := by
      simp [processOne, truthy, hfp, hne, hchk]
    refine ⟨doDownload net fp { st with checks := st.checks ++ [f.filename] } f, h1,
      by simpa using doDownload_downloads net fp _ f, hlast _ rfl, ?_⟩
    simp [processFiles, h1]

/-- C5 witness: one failing download at a concrete input, followed by the
rest of the batch. -/
theorem c5_download_failure_isolated_witness :
    ∃ st', processOne (fun _ => "") (fun _ => .error ()) ["public", "downloads"]
        ⟨⟨[]⟩, [], [], []⟩ ⟨"https://x/a", "a.png", none⟩ = .ok st' ∧
      st'.downloads = [] ++ ["a.png"] ∧
      st'.log.getLast? = some ⟨.error, "Downloading " ++ "a.png" ++ " failed."⟩ ∧
      processFiles (fun _ => "") (fun _ => .error ()) ["public", "downloads"]
          [⟨"https://x/a", "a.png", none⟩, ⟨"https://x/b", "b.png", none⟩]
          ⟨⟨[]⟩, [], [], []⟩
        = processFiles (fun _ => "") (fun _ => .error ()) ["public", "downloads"]
            [⟨"https://x/b", "b.png", none⟩] st' :=
  (c5_download_failure_isolated (fun _ => "") (fun _ => .error ())
    ["public", "downloads"] ⟨⟨[]⟩, [], [], []⟩ ⟨"https://x/a", "a.png", none⟩
    [⟨"https://x/b", "b.png", none⟩] rfl (Or.inl rfl)).1

/-! ### Monotonicity: the loop never deletes filesystem entries -/

/-- The loop state carried out of the per-descriptor loop, successful or
not (on error, the state at the moment of the uncaught rejection). -/
def loopStateOf : Except (LoopState × JsError) LoopState → LoopState
  | .ok st => st
  | .error (st, _) => st

theorem lookupFS_isSome_setEntry (fs : FS) (p q : Path) (e : FSEntry)
    (h : (lookupFS fs q).isSome) : (lookupFS (setEntry fs p e) q).isSome := by
  rw [lookupFS_setEntry]
  split <;> simp [h]

theorem existsSyncFS_setEntry (fs : FS) (p q : Path) (e : FSEntry)
    (h : existsSyncFS fs q = true) : existsSyncFS (setEntry fs p e) q = true := by
  simp only [existsSyncFS, Bool.or_eq_true] at h ⊢
  rcases h with h | h
  · exact Or.inl h
  · exact Or.inr (lookupFS_isSome_setEntry fs p q e h)

theorem existsSyncFS_downloadAsset (net : String → Except Unit (List Nat))
    (fp : Path) (fs : FS) (url fn : String) (q : Path)
    (h : existsSyncFS fs q = true) :
    existsSyncFS (downloadAsset net fp fs url fn).1 q = true := by
  unfold downloadAsset
  cases hl : lookupFS fs (resolvePath fp fn) with
  | none =>
    cases hn : net url <;>
      simp [hl, hn, existsSyncFS_setEntry, h]
  | some e =>
    cases e with
    | dir => simpa [hl] using h
    | file c =>
      cases hn : net url <;> simp [hl, hn, existsSyncFS_setEntry, h]
    | unreadableFile =>
      cases hn : net url <;> simp [hl, hn, existsSyncFS_setEntry, h]

theorem existsSyncFS_doDownload (net : String → Except Unit (List Nat))
    (fp : Path) (st : LoopState) (f : FileAssetType) (q : Path)
    (h : existsSyncFS st.fs q = true) :
    existsSyncFS (doDownload net fp st f).fs q = true := by
  rw [doDownload_fs]
  exact existsSyncFS_downloadAsset net fp st.fs f.url f.filename q h

theorem existsSyncFS_processOne (hash : List Nat → String)
    (net : String → Except Unit (List Nat)) (fp : Path) (st : LoopState)
    (f : FileAssetType) (q : Path) (h : existsSyncFS st.fs q = true) :
    existsSyncFS (loopStateOf (processOne hash net fp st f)).fs q = true := by
  unfold processOne
  cases ht : truthy f.sha1hash
  · simp only [Bool.false_eq_true, if_false, loopStateOf]
    exact existsSyncFS_doDownload net fp st f q h
  · simp only [if_true]
    cases hc : checkIfFileHasNotChanged hash st.fs (resolvePath fp f.filename)
        (f.sha1hash.getD "") with
    | error e => simpa [loopStateOf] using h
    | ok b =>
      cases b
      · simp only [loopStateOf]
        exact existsSyncFS_doDownload net fp _ f q h
      · simpa [loopStateOf] using h

theorem existsSyncFS_processFiles (hash : List Nat → String)
    (net : String → Except Unit (List Nat)) (fp : Path) :
    ∀ (files : List FileAssetType) (st : LoopState) (q : Path),
      existsSyncFS st.fs q = true →
      existsSyncFS (loopStateOf (processFiles hash net fp files st)).fs q = true := by
  intro files
  induction files with
  | nil => intro st q h; exact h
  | cons f rest ih =>
    intro st q h
    have h1 := existsSyncFS_processOne hash net fp st f q h
    cases hp : processOne hash net fp st f with
    | error e =>
      rcases e with ⟨st1, er⟩
      rw [hp] at h1
      simpa [processFiles, hp, loopStateOf] using h1
    | ok st1 =>
      rw [hp] at h1
      simp only [loopStateOf] at h1
      simpa [processFiles, hp] using ih st1 q h1

theorem processFiles_ok_fs_exists (hash : List Nat → String)
    (net : String → Except Unit (List Nat)) (fp : Path)
    (files : List FileAssetType) (st st' : LoopState)
    (h : processFiles hash net fp files st = .ok st') (q : Path)
    (hq : existsSyncFS st.fs q = true) : existsSyncFS st'.fs q = true := by
  have := existsSyncFS_processFiles hash net fp files st q hq
  rw [h] at this
  exact this

theorem processFiles_error_fs_exists (hash : List Nat → String)
    (net : String → Except Unit (List Nat)) (fp : Path)
    (files : List FileAssetType) (st st' : LoopState) (e : JsError)
    (h : processFiles hash net fp files st = .error (st', e)) (q : Path)
    (hq : existsSyncFS st.fs q = true) : existsSyncFS st'.fs q = true := by
  have := existsSyncFS_processFiles hash net fp files st q hq
  rw [h] at this
  exact this

/-! ### Directory creation and recursive removal -/

theorem foldl_mkdir_exists_mono :
    ∀ (l : List Path) (fs : FS) (q : Path), existsSyncFS fs q = true →
      existsSyncFS (l.foldl
        (fun acc x => if existsSyncFS acc x then acc else setEntry acc x .dir) fs)
        q = true := by
  intro l
  induction l with
  | nil => intro fs q h; exact h
  | cons x xs ih =>
    intro fs q h
    rw [List.foldl_cons]
    apply ih
    cases hx : existsSyncFS fs x
    · simpa [hx] using existsSyncFS_setEntry fs x q .dir h
    · simpa [hx] using h

theorem foldl_mkdir_exists_self :
    ∀ (l : List Path) (fs : FS) (q : Path), q ∈ l →
      existsSyncFS (l.foldl
        (fun acc x => if existsSyncFS acc x then acc else setEntry acc x .dir) fs)
        q = true := by
  intro l
  induction l with
  | nil => intro fs q h; cases h
  | cons x xs ih =>
    intro fs q h
    rcases List.mem_cons.mp h with rfl | hmem
    · rw [List.foldl_cons]
      apply foldl_mkdir_exists_mono
      cases hx : existsSyncFS fs q
      · simp only [hx, Bool.false_eq_true, if_false]
        simp [existsSyncFS, lookupFS_setEntry_self]
      · simp [hx]
    · exact ih _ q hmem

theorem existsSyncFS_mkdirRecursive_self (fs : FS) (p : Path) (hp : p ≠ []) :
    existsSyncFS (mkdirRecursive fs p) p = true := by
  unfold mkdirRecursive
  apply foldl_mkdir_exists_self
  unfold ancestorPaths
  rw [List.mem_map]
  have hpos : 0 < p.length := List.length_pos.mpr hp
  refine ⟨p.length - 1, List.mem_range.mpr (by omega), ?_⟩
  have hlen : p.length - 1 + 1 = p.length := by omega
  rw [hlen, List.take_length]

theorem lookupEntries_filter_inside :
    ∀ (l : List (Path × FSEntry)) (p q : Path), pathHasRoot p q = true →
      lookupEntries (l.filter (fun x => !(pathHasRoot p x.1))) q = none := by
  intro l p q hq
  induction l with
  | nil => rfl
  | cons e es ih =>
    cases he : pathHasRoot p e.1
    · have hne : e.1 ≠ q := by
        intro h
        rw [h, hq] at he
        cases he
      simpa [List.filter_cons, he, lookupEntries, hne] using ih
    · simpa [List.filter_cons, he] using ih

theorem lookupFS_removeSubtree_inside (fs : FS) (p q : Path)
    (hq : pathHasRoot p q = true) :
    lookupFS (removeSubtree fs p) q = none :=
  lookupEntries_filter_inside fs.entries p q hq

/-! ### C2 -/

theorem buildDone_not_created (directory : String) (fs : FS) (log : List LogEntry) :
    (buildDone directory false fs log).1 = fs := rfl

theorem buildDone_created_removes (directory : String) (fs : FS) (log : List LogEntry)
    (hex : existsSyncFS fs (getFolderPath directory) = true) (q : Path)
    (hq : pathHasRoot (getFolderPath directory) q = true) :
    lookupFS (buildDone directory true fs log).1 q = none := by
  simp only [buildDone, deleteFolder, hex, if_true, Bool.true_eq_false, if_false]
  exact lookupFS_removeSubtree_inside fs _ q hq

theorem buildStartMain_char {D : Type} (directory : String)
    (handler : D → Option FileAssetType) (assets : List D)
    (hash : List Nat → String) (net : String → Except Unit (List Nat))
    (fs : FS) (log1 : List LogEntry) :
    (buildStartMain directory handler assets hash net fs log1).createdFolder
        = !(existsSyncFS fs (getFolderPath directory)) ∧
    (existsSyncFS fs (getFolderPath directory) = false →
      existsSyncFS (buildStartMain directory handler assets hash net fs log1).fs
        (getFolderPath directory) = true) := by
  unfold buildStartMain
  cases hex : existsSyncFS fs (getFolderPath directory)
  · have hpne : getFolderPath directory ≠ [] := by
      intro hnil
      rw [hnil] at hex
      simp [existsSyncFS] at hex
    simp only [createFolder, hex, Bool.false_eq_true, if_false, Bool.not_false]
    split
    · next st heq =>
      exact ⟨rfl, fun _ => processFiles_ok_fs_exists hash net _ _ _ _ heq _
        (existsSyncFS_mkdirRecursive_self fs _ hpne)⟩
    · next st e heq =>
      exact ⟨rfl, fun _ => processFiles_error_fs_exists hash net _ _ _ _ _ heq _
        (existsSyncFS_mkdirRecursive_self fs _ hpne)⟩
  · simp only [createFolder, hex, if_true, Bool.not_true]
    split
    · next st heq => exact ⟨rfl, fun hc => absurd hc (by decide)⟩
    · next st e heq => exact ⟨rfl, fun hc => absurd hc (by decide)⟩

/-- C2: after build-end the staging directory has been removed exactly when
this run's build-start set `createdFolder` — which happens only when the
directory did not exist before build-start; every path inside the staging
directory is then gone.  When the flag is false — in particular whenever
the directory pre-existed — build-end leaves the filesystem completely
untouched, pre-existing unrelated files included. -/
theorem c2_folder_removed_iff_created {D : Type} (directory : String)
    (handler : D → Option FileAssetType) (fo : FetchOutcome D)
    (hash : List Nat → String) (net : String → Except Unit (List Nat)) (fs : FS)
    (r : BuildStartResult)
    (hr : r = buildStart directory handler fo hash net false fs)
    (fs2 : FS) (h2 : fs2 = (buildDone directory r.createdFolder r.fs r.log).1) :
    (r.createdFolder = true →
      existsSyncFS fs (getFolderPath directory) = false ∧
      ∀ q, pathHasRoot (getFolderPath directory) q = true →
        lookupFS fs2 q = none) ∧
    (r.createdFolder = false → fs2 = r.fs) ∧
    (existsSyncFS fs (getFolderPath directory) = true →
      r.createdFolder = false) := by
  subst hr
  subst h2
  rcases fo with _ | _ | assets
  · simp [buildStart, fetchAssetUrls, buildDone]
  · simp [buildStart, fetchAssetUrls, buildDone]
  · cases assets with
    | nil => simp [buildStart, fetchAssetUrls, buildDone]
    | cons a as =>
      have hbs : buildStart directory handler (.ok (a :: as)) hash net false fs
          = buildStartMain directory handler (a :: as) hash net fs
              [⟨.debug, "Fetching remote assets…"⟩,
               ⟨.debug, "Collecting assets from Sanity…"⟩] := by
        simp [buildStart, fetchAssetUrls]
      rw [hbs]
      obtain ⟨hflag, hkeep⟩ := buildStartMain_char directory handler (a :: as)
        hash net fs
        [⟨.debug, "Fetching remote assets…"⟩,
         ⟨.debug, "Collecting assets from Sanity…"⟩]
      refine ⟨?_, ?_, ?_⟩
      · intro hcf
        rw [hcf] at hflag
        have hex : existsSyncFS fs (getFolderPath directory) = false := by
          cases hx : existsSyncFS fs (getFolderPath directory)
          · rfl
          · rw [hx] at hflag
            exact absurd hflag (by decide)
        refine ⟨hex, fun q hq => ?_⟩
        rw [hcf]
        exact buildDone_created_removes directory _ _ (hkeep hex) q hq
      · intro hcf
        rw [hcf]
        exact buildDone_not_created directory _ _
      · intro hex
        rw [hflag, hex]
        rfl

/-- C2 witness: a run that creates `public/downloads`, downloads one file
into it, and removes everything under it at build-end. -/
theorem c2_folder_removed_iff_created_witness :
    lookupFS (buildDone "downloads"
      (buildStart (D := Unit) "downloads"
        (fun _ => some ⟨"https://x/a", "a.png", none⟩) (.ok [()])
        (fun _ => "") (fun _ => .ok [7]) false ⟨[]⟩).createdFolder
      (buildStart (D := Unit) "downloads"
        (fun _ => some ⟨"https://x/a", "a.png", none⟩) (.ok [()])
        (fun _ => "") (fun _ => .ok [7]) false ⟨[]⟩).fs
      (buildStart (D := Unit) "downloads"
        (fun _ => some ⟨"https://x/a", "a.png", none⟩) (.ok [()])
        (fun _ => "") (fun _ => .ok [7]) false ⟨[]⟩).log).1
      ["public", "downloads", "a.png"] = none := by
  have H := c2_folder_removed_iff_created (D := Unit) "downloads"
    (fun _ => some ⟨"https://x/a", "a.png", none⟩) (.ok [()])
    (fun _ => "") (fun _ => .ok [7]) ⟨[]⟩ _ rfl _ rfl
  exact (H.1 (by decide)).2 ["public", "downloads", "a.png"] (by decide)

/-! ### C7: path resolution and traversal -/

theorem foldl_normStep_clean :
    ∀ (cs : List String) (acc : Path),
      (∀ c ∈ cs, c ≠ "" ∧ c ≠ "." ∧ c ≠ "..") →
      cs.foldl normStep acc = acc ++ cs := by
  intro cs
  induction cs with
  | nil => intro acc _; simp
  | cons c cs ih =>
    intro acc h
    obtain ⟨h1, h2, h3⟩ := h c (by simp)
    rw [List.foldl_cons]
    have hstep : normStep acc c = acc ++ [c] := by
      simp [normStep, h1, h2, h3]
    rw [hstep, ih (acc ++ [c]) (fun x hx => h x (by simp [hx])), List.append_assoc]
    simp

theorem foldl_normStep_mem :
    ∀ (cs : List String) (acc : Path),
      (∀ c ∈ acc, c ≠ "" ∧ c ≠ "." ∧ c ≠ "..") →
      ∀ c ∈ cs.foldl normStep acc, c ≠ "" ∧ c ≠ "." ∧ c ≠ ".." := by
  intro cs
  induction cs with
  | nil => intro acc hacc; exact hacc
  | cons c cs ih =>
    intro acc hacc
    rw [List.foldl_cons]
    apply ih
    intro x hx
    by_cases h1 : c = "" ∨ c = "."
    · rw [normStep, if_pos h1] at hx
      exact hacc x hx
    · by_cases h2 : c = ".."
      · rw [normStep, if_neg h1, if_pos h2] at hx
        exact hacc x (List.dropLast_subset acc hx)
      · rw [normStep, if_neg h1, if_neg h2] at hx
        rcases List.mem_append.mp hx with h | h
        · exact hacc x h
        · rcases List.mem_singleton.mp h with rfl
          exact ⟨fun he => h1 (Or.inl he), fun he => h1 (Or.inr he), h2⟩

theorem normalize_mem (cs : List String) :
    ∀ c ∈ normalize cs, c ≠ "" ∧ c ≠ "." ∧ c ≠ ".." :=
  foldl_normStep_mem cs [] (by simp)

theorem getFolderPath_clean (directory : String) :
    ∀ c ∈ getFolderPath directory, c ≠ "" ∧ c ≠ "." ∧ c ≠ ".." := by
  unfold getFolderPath resolvePath
  split
  · exact normalize_mem _
  · exact normalize_mem _

theorem resolvePath_clean (base : Path) (filename : String)
    (hb : ∀ c ∈ base, c ≠ "" ∧ c ≠ "." ∧ c ≠ "..")
    (habs : startsWithSlash filename = false)
    (hn : ∀ c ∈ splitSlash filename, c ≠ "" ∧ c ≠ "." ∧ c ≠ "..") :
    resolvePath base filename = base ++ splitSlash filename := by
  unfold resolvePath
  rw [habs]
  simp only [Bool.false_eq_true, if_false]
  unfold normalize
  rw [List.foldl_append, foldl_normStep_clean base [] hb]
  simp only [List.nil_append]
  exact foldl_normStep_clean _ base hn

theorem pathHasRoot_append : ∀ (p q : Path), pathHasRoot p (p ++ q) = true := by
  intro p q
  induction p with
  | nil => rfl
  | cons x xs ih => simp [pathHasRoot, ih]

/-- C7 counterexample: the claim fails for a descriptor whose filename
contains `..`.  `resolve` happily walks out of the staging directory: with
staging directory `public/downloads`, the filename `../evil.txt` resolves to
`public/evil.txt`, which is not inside the staging directory, and a run of
the build-start hook with that descriptor writes the downloaded bytes
there. -/
theorem c7_counterexample :
    pathHasRoot (getFolderPath "downloads")
      (resolvePath (getFolderPath "downloads") "../evil.txt") = false ∧
    lookupFS (buildStart (D := Unit) "downloads"
        (fun _ => some ⟨"https://x/a", "../evil.txt", none⟩) (.ok [()])
        (fun _ => "") (fun _ => .ok [7]) false ⟨[]⟩).fs
      ["public", "evil.txt"] = some (FSEntry.file [7]) :=
  ⟨by decide, by decide⟩

/-- C7 (amended): the resolved local path — the one used both for hashing
and for the download write — stays inside the staging directory only under
an extra hypothesis on the filename: it is not absolute and none of its
slash-separated components is empty, `"."`, or `".."`.  Under that
hypothesis the resolved path is the staging directory extended by the
filename's components, hence inside it; for arbitrary filenames the
invariant is not enforced by the code (see the counterexample). -/
theorem c7_amended (directory filename : String)
    (habs : startsWithSlash filename = false)
    (hcomp : ∀ c ∈ splitSlash filename, c ≠ "" ∧ c ≠ "." ∧ c ≠ "..") :
    resolvePath (getFolderPath directory) filename
      = getFolderPath directory ++ splitSlash filename ∧
    pathHasRoot (getFolderPath directory)
      (resolvePath (getFolderPath directory) filename) = true := by
  have h1 := resolvePath_clean (getFolderPath directory) filename
    (getFolderPath_clean directory) habs hcomp
  refine ⟨h1, ?_⟩
  rw [h1]
  exact pathHasRoot_append _ _

/-- C7 witness: a plain filename stays inside the staging directory. -/
theorem c7_amended_witness :
    pathHasRoot (getFolderPath "downloads")
      (resolvePath (getFolderPath "downloads") "a.png") = true :=
  (c7_amended "downloads" "a.png" (by decide) (by decide)).2

/-! ### C9: idempotence machinery -/

theorem downloadAsset_ok_lookup (net : String → Except Unit (List Nat)) (fp : Path)
    (fs : FS) (url fn : String) (c₀ : List Nat) (hnet : net url = .ok c₀)
    (hnd : lookupFS fs (resolvePath fp fn) ≠ some FSEntry.dir) :
    lookupFS (downloadAsset net fp fs url fn).1 (resolvePath fp fn)
      = some (FSEntry.file c₀) := by
  unfold downloadAsset
  cases hl : lookupFS fs (resolvePath fp fn) with
  | none => simp [hl, hnet, lookupFS_setEntry_self]
  | some e =>
    cases e with
    | dir => exact absurd hl hnd
    | file c => simp [hl, hnet, lookupFS_setEntry_self]
    | unreadableFile => simp [hl, hnet, lookupFS_setEntry_self]

theorem foldl_mkdir_lookup_frame :
    ∀ (l : List Path) (fs : FS) (q : Path), (∀ x ∈ l, x ≠ q) →
      lookupFS (l.foldl
        (fun acc x => if existsSyncFS acc x then acc else setEntry acc x .dir) fs) q
        = lookupFS fs q := by
  intro l
  induction l with
  | nil => intro fs q _; rfl
  | cons x xs ih =>
    intro fs q h
    rw [List.foldl_cons, ih _ q (fun y hy => h y (by simp [hy]))]
    cases hex : existsSyncFS fs x
    · simp only [hex, Bool.false_eq_true, if_false]
      exact lookupFS_setEntry_ne fs x q .dir (h x (by simp))
    · simp [hex]

theorem mkdirRecursive_lookup_frame (fs : FS) (p q : Path)
    (hq : q ∉ ancestorPaths p) :
    lookupFS (mkdirRecursive fs p) q = lookupFS fs q :=
  foldl_mkdir_lookup_frame _ fs q (fun _ hx hxq => hq (hxq ▸ hx))

theorem createFolder_lookup_frame (fp : Path) (fs : FS) (log : List LogEntry)
    (q : Path) (hq : q ∉ ancestorPaths fp) :
    lookupFS (createFolder fp fs log).1 q = lookupFS fs q := by
  unfold createFolder
  cases hex : existsSyncFS fs fp
  · simp only [hex, Bool.false_eq_true, if_false]
    exact mkdirRecursive_lookup_frame fs fp q hq
  · simp [hex]

theorem processOne_establishes (hash : List Nat → String)
    (net : String → Except Unit (List Nat)) (fp : Path) (st : LoopState)
    (f : FileAssetType) (h : String) (c₀ : List Nat)
    (hfp : f.sha1hash = some h) (hne : h ≠ "")
    (hnet : net f.url = .ok c₀) (hhash : hash c₀ = h)
    (hgood : ∀ e, lookupFS st.fs (resolvePath fp f.filename) = some e →
      ∃ c, e = FSEntry.file c)
    (hpne : resolvePath fp f.filename ≠ []) :
    ∃ st', processOne hash net fp st f = .ok st' ∧
      (∃ c, lookupFS st'.fs (resolvePath fp f.filename) = some (FSEntry.file c) ∧
        hash c = h) ∧
      (∀ q, q ≠ resolvePath fp f.filename →
        lookupFS st'.fs q = lookupFS st.fs q) := by
  cases hl : lookupFS st.fs (resolvePath fp f.filename) with
  | none =>
    have hemp : (resolvePath fp f.filename).isEmpty = false := by
      cases hcase : resolvePath fp f.filename
      · exact absurd hcase hpne
      · rfl
    have hex : existsSyncFS st.fs (resolvePath fp f.filename) = false := by
      simp [existsSyncFS, hl, hemp]
    have hchk : checkIfFileHasNotChanged hash st.fs (resolvePath fp f.filename) h
        = .ok false := by
      simp [checkIfFileHasNotChanged, hex]
    have hpo : processOne hash net fp st f
        = .ok (doDownload net fp { st with checks := st.checks ++ [f.filename] } f) := by
      simp [processOne, truthy, hfp, hne, hchk]
    refine ⟨_, hpo, ⟨c₀, ?_, hhash⟩, ?_⟩
    · rw [doDownload_fs]
      exact downloadAsset_ok_lookup net fp _ f.url f.filename c₀ hnet (by simp [hl])
    · intro q hq
      rw [doDownload_fs]
      exact downloadAsset_fs_frame net fp _ f.url f.filename q hq
  | some e =>
    obtain ⟨c, rfl⟩ := hgood e hl
    have hex : existsSyncFS st.fs (resolvePath fp f.filename) = true := by
      simp [existsSyncFS, hl]
    by_cases hcc : hash c = h
    · have hchk : checkIfFileHasNotChanged hash st.fs (resolvePath fp f.filename) h
          = .ok true := by
        simp [checkIfFileHasNotChanged, hex, hl, hcc]
      have hpo : processOne hash net fp st f = .ok { st with
          checks := st.checks ++ [f.filename],
          log := st.log
            ++ [⟨.info, "Skipping " ++ f.filename ++ ", file has not changed."⟩] } := by
        simp [processOne, truthy, hfp, hne, hchk]
      exact ⟨_, hpo, ⟨c, hl, hcc⟩, fun q hq => rfl⟩
    · have hchk : checkIfFileHasNotChanged hash st.fs (resolvePath fp f.filename) h
          = .ok false := by
        simp [checkIfFileHasNotChanged, hex, hl, hcc]
      have hpo : processOne hash net fp st f
          = .ok (doDownload net fp { st with checks := st.checks ++ [f.filename] } f) := by
        simp [processOne, truthy, hfp, hne, hchk]
      refine ⟨_, hpo, ⟨c₀, ?_, hhash⟩, ?_⟩
      · rw [doDownload_fs]
        exact downloadAsset_ok_lookup net fp _ f.url f.filename c₀ hnet (by simp [hl])
      · intro q hq
        rw [doDownload_fs]
        exact downloadAsset_fs_frame net fp _ f.url f.filename q hq

theorem processFiles_establishes (hash : List Nat → String)
    (net : String → Except Unit (List Nat)) (fp : Path) :
    ∀ (files : List FileAssetType) (st : LoopState),
      ((files.map (fun f => resolvePath fp f.filename)).Nodup) →
      (∀ f ∈ files, ∃ h, f.sha1hash = some h ∧ h ≠ "" ∧
        ∃ c, net f.url = .ok c ∧ hash c = h) →
      (∀ f ∈ files, ∀ e, lookupFS st.fs (resolvePath fp f.filename) = some e →
        ∃ c, e = FSEntry.file c) →
      (∀ f ∈ files, resolvePath fp f.filename ≠ []) →
      ∃ st', processFiles hash net fp files st = .ok st' ∧
        (∀ f ∈ files, ∃ h c, f.sha1hash = some h ∧ h ≠ "" ∧
          lookupFS st'.fs (resolvePath fp f.filename) = some (FSEntry.file c) ∧
          hash c = h) ∧
        (∀ q, (∀ f ∈ files, q ≠ resolvePath fp f.filename) →
          lookupFS st'.fs q = lookupFS st.fs q) := by
  intro files
  induction files with
  | nil =>
    intro st _ _ _ _
    exact ⟨st, rfl, by simp, fun q _ => rfl⟩
  | cons f rest ih =>
    intro st hnd h1 hgood hpne
    obtain ⟨h, hfp, hne, c₀, hnet, hhash⟩ := h1 f (by simp)
    obtain ⟨st1, hpo, hmat1, hframe1⟩ := processOne_establishes hash net fp st f h c₀
      hfp hne hnet hhash (hgood f (by simp)) (hpne f (by simp))
    rw [List.map_cons] at hnd
    obtain ⟨hnotin0, hnd'⟩ := List.nodup_cons.mp hnd
    have hnotin : ∀ g ∈ rest,
        resolvePath fp g.filename ≠ resolvePath fp f.filename := by
      intro g hg heqp
      exact hnotin0 (by rw [← heqp]; exact List.mem_map_of_mem _ hg)
    obtain ⟨st', hpf, hmat, hframe⟩ := ih st1 hnd'
      (fun g hg => h1 g (by simp [hg]))
      (fun g hg e he => hgood g (by simp [hg]) e (by
        rw [← hframe1 _ (hnotin g hg)]; exact he))
      (fun g hg => hpne g (by simp [hg]))
    refine ⟨st', by simp [processFiles, hpo, hpf], ?_, ?_⟩
    · intro g hg
      rcases List.mem_cons.mp hg with rfl | hg'
      · obtain ⟨c, hc, hch⟩ := hmat1
        refine ⟨h, c, hfp, hne, ?_, hch⟩
        rw [hframe _ (fun g' hg' => fun heqp => hnotin g' hg' heqp.symm)]
        exact hc
      · exact hmat g hg'
    · intro q hq
      rw [hframe q (fun g hg => hq g (by simp [hg])), hframe1 q (hq f (by simp))]

theorem processFiles_all_skip (hash : List Nat → String)
    (net : String → Except Unit (List Nat)) (fp : Path) :
    ∀ (files : List FileAssetType) (st : LoopState),
      (∀ f ∈ files, ∃ h c, f.sha1hash = some h ∧ h ≠ "" ∧
        lookupFS st.fs (resolvePath fp f.filename) = some (FSEntry.file c) ∧
        hash c = h) →
      ∃ st', processFiles hash net fp files st = .ok st' ∧
        st'.fs = st.fs ∧ st'.downloads = st.downloads := by
  intro files
  induction files with
  | nil => intro st _; exact ⟨st, rfl, rfl, rfl⟩
  | cons f rest ih =>
    intro st hm
    obtain ⟨h, c, hfp, hne, hl, hch⟩ := hm f (by simp)
    have hex : existsSyncFS st.fs (resolvePath fp f.filename) = true := by
      simp [existsSyncFS, hl]
    have hchk : checkIfFileHasNotChanged hash st.fs (resolvePath fp f.filename) h
        = .ok true := by
      simp [checkIfFileHasNotChanged, hex, hl, hch]
    have hpo : processOne hash net fp st f = .ok { st with
        checks := st.checks ++ [f.filename],
        log := st.log
          ++ [⟨.info, "Skipping " ++ f.filename ++ ", file has not changed."⟩] } := by
      simp [processOne, truthy, hfp, hne, hchk]
    obtain ⟨st', hpf, hfs, hdl⟩ := ih { st with
        checks := st.checks ++ [f.filename],
        log := st.log
          ++ [⟨.info, "Skipping " ++ f.filename ++ ", file has not changed."⟩] }
      (fun g hg => hm g (by simp [hg]))
    exact ⟨st', by simp [processFiles, hpo, hpf], hfs, hdl⟩

theorem buildStartMain_of_processFiles_ok {D : Type} (directory : String)
    (handler : D → Option FileAssetType) (assets : List D)
    (hash : List Nat → String) (net : String → Except Unit (List Nat)) (fs : FS)
    (log1 : List LogEntry) (st' : LoopState)
    (h : processFiles hash net (getFolderPath directory) (assets.filterMap handler)
      ⟨(createFolder (getFolderPath directory) fs log1).1,
       (createFolder (getFolderPath directory) fs log1).2.1 ++
         [⟨.info, "Downloading " ++ toString (assets.filterMap handler).length
           ++ " remote assets to /public/" ++ directory ++ "…"⟩], [], []⟩ = .ok st') :
    buildStartMain directory handler assets hash net fs log1
      = ⟨st'.fs, (createFolder (getFolderPath directory) fs log1).2.2, st'.log,
         st'.downloads, st'.checks, .ok ()⟩ := by
  unfold buildStartMain
  dsimp only
  rw [h]

/-- C9 counterexample: build-start is not idempotent for every backend
response.  A mapped descriptor without a fingerprint is downloaded on every
run: with one such record, unchanged backend response and unchanged local
files, the second run still performs one download instead of zero. -/
theorem c9_counterexample :
    (buildStart (D := Unit) "downloads"
        (fun _ => some ⟨"https://x/a", "a.png", none⟩) (.ok [()])
        (fun _ => "h") (fun _ => .ok [1, 2, 3])
        (buildStart (D := Unit) "downloads"
          (fun _ => some ⟨"https://x/a", "a.png", none⟩) (.ok [()])
          (fun _ => "h") (fun _ => .ok [1, 2, 3]) false ⟨[]⟩).createdFolder
        (buildStart (D := Unit) "downloads"
          (fun _ => some ⟨"https://x/a", "a.png", none⟩) (.ok [()])
          (fun _ => "h") (fun _ => .ok [1, 2, 3]) false ⟨[]⟩).fs).downloads
      = ["a.png"] := by decide

/-- C9 (amended): build-start is idempotent on the runs its skip mechanism
can recognize.  If every mapped descriptor carries a non-empty fingerprint
equal to the digest of the content the network serves for its URL, the
resolved target paths are pairwise distinct, none of them is the staging
directory, one of its ancestor prefixes, or the filesystem root, and each
target initially holds either nothing or a readable file, then a second
build-start run on the state left by the first performs zero downloads and
reports no error.  (Descriptors without a fingerprint void idempotence —
see the counterexample.) -/
theorem c9_amended {D : Type} (directory : String)
    (handler : D → Option FileAssetType) (assets : List D)
    (hash : List Nat → String) (net : String → Except Unit (List Nat)) (fs : FS)
    (H1 : ∀ f ∈ assets.filterMap handler, ∃ h, f.sha1hash = some h ∧ h ≠ "" ∧
      ∃ c, net f.url = .ok c ∧ hash c = h)
    (H2 : ((assets.filterMap handler).map
      (fun f => resolvePath (getFolderPath directory) f.filename)).Nodup)
    (H3 : ∀ f ∈ assets.filterMap handler, ∀ e,
      lookupFS fs (resolvePath (getFolderPath directory) f.filename) = some e →
      ∃ c, e = FSEntry.file c)
    (H4 : ∀ f ∈ assets.filterMap handler,
      resolvePath (getFolderPath directory) f.filename
        ∉ ancestorPaths (getFolderPath directory))
    (H5 : ∀ f ∈ assets.filterMap handler,
      resolvePath (getFolderPath directory) f.filename ≠ []) :
    (buildStart directory handler (.ok assets) hash net
      (buildStart directory handler (.ok assets) hash net false fs).createdFolder
      (buildStart directory handler (.ok assets) hash net false fs).fs).downloads
      = [] ∧
    (buildStart directory handler (.ok assets) hash net
      (buildStart directory handler (.ok assets) hash net false fs).createdFolder
      (buildStart directory handler (.ok assets) hash net false fs).fs).outcome
      = .ok () := by
  cases assets with
  | nil => simp [buildStart, fetchAssetUrls]
  | cons a as =>
    have hbs : ∀ (cf0 : Bool) (fs0 : FS),
        buildStart directory handler (.ok (a :: as)) hash net cf0 fs0
          = buildStartMain directory handler (a :: as) hash net fs0
              [⟨.debug, "Fetching remote assets…"⟩,
               ⟨.debug, "Collecting assets from Sanity…"⟩] := by
      intro cf0 fs0
      simp [buildStart, fetchAssetUrls]
    obtain ⟨st1, hpf1, hmat1, hframe1⟩ := processFiles_establishes hash net
      (getFolderPath directory) ((a :: as).filterMap handler)
      ⟨(createFolder (getFolderPath directory) fs
          [⟨.debug, "Fetching remote assets…"⟩,
           ⟨.debug, "Collecting assets from Sanity…"⟩]).1,
       (createFolder (getFolderPath directory) fs
          [⟨.debug, "Fetching remote assets…"⟩,
           ⟨.debug, "Collecting assets from Sanity…"⟩]).2.1 ++
         [⟨.info, "Downloading "
           ++ toString ((a :: as).filterMap handler).length
           ++ " remote assets to /public/" ++ directory ++ "…"⟩], [], []⟩
      H2 H1
      (fun f hf e he => H3 f hf e (by
        rw [← createFolder_lookup_frame (getFolderPath directory) fs _ _ (H4 f hf)]
        exact he))
      H5
    have hrun1 := buildStartMain_of_processFiles_ok directory handler (a :: as)
      hash net fs
      [⟨.debug, "Fetching remote assets…"⟩,
       ⟨.debug, "Collecting assets from Sanity…"⟩] st1 hpf1
    obtain ⟨st2, hpf2, hfs2, hdl2⟩ := processFiles_all_skip hash net
      (getFolderPath directory) ((a :: as).filterMap handler)
      ⟨(createFolder (getFolderPath directory) st1.fs
          [⟨.debug, "Fetching remote assets…"⟩,
           ⟨.debug, "Collecting assets from Sanity…"⟩]).1,
       (createFolder (getFolderPath directory) st1.fs
          [⟨.debug, "Fetching remote assets…"⟩,
           ⟨.debug, "Collecting assets from Sanity…"⟩]).2.1 ++
         [⟨.info, "Downloading "
           ++ toString ((a :: as).filterMap handler).length
           ++ " remote assets to /public/" ++ directory ++ "…"⟩], [], []⟩
      (fun g hg => by
        obtain ⟨h, c, hgfp, hne, hl, hch⟩ := hmat1 g hg
        refine ⟨h, c, hgfp, hne, ?_, hch⟩
        rw [createFolder_lookup_frame (getFolderPath directory) st1.fs _ _ (H4 g hg)]
        exact hl)
    have hrun2 := buildStartMain_of_processFiles_ok directory handler (a :: as)
      hash net st1.fs
      [⟨.debug, "Fetching remote assets…"⟩,
       ⟨.debug, "Collecting assets from Sanity…"⟩] st2 hpf2
    rw [hbs false fs, hrun1, hbs, hrun2]
    exact ⟨hdl2, rfl⟩

/-- C9 witness: a single fingerprinted descriptor whose local copy matches
after the first run is skipped on the second run. -/
theorem c9_amended_witness :
    (buildStart (D := Unit) "downloads"
        (fun _ => some ⟨"https://x/a", "a.png", some "h"⟩) (.ok [()])
        (fun c => if c = [1] then "h" else "x") (fun _ => .ok [1])
        (buildStart (D := Unit) "downloads"
          (fun _ => some ⟨"https://x/a", "a.png", some "h"⟩) (.ok [()])
          (fun c => if c = [1] then "h" else "x") (fun _ => .ok [1])
          false ⟨[]⟩).createdFolder
        (buildStart (D := Unit) "downloads"
          (fun _ => some ⟨"https://x/a", "a.png", some "h"⟩) (.ok [()])
          (fun c => if c = [1] then "h" else "x") (fun _ => .ok [1])
          false ⟨[]⟩).fs).downloads
      = [] := by
  refine (c9_amended (D := Unit) "downloads"
    (fun _ => some ⟨"https://x/a", "a.png", some "h"⟩) [()]
    (fun c => if c = [1] then "h" else "x") (fun _ => .ok [1]) ⟨[]⟩
    ?_ (by decide) ?_ (by decide) (by decide)).1
  · intro f hf
    simp only [List.filterMap_cons, List.filterMap_nil, List.mem_singleton] at hf
    subst hf
    exact ⟨"h", rfl, by decide, [1], rfl, by decide⟩
  · intro f hf e he
    exact Option.noConfusion he

end AstroSanityAssets
